import Mathlib

/-!
Verification of the session-orchestration and routing layer of the banking
assistant (`app/copilot/app/agents/azure_chat/supervisor_agent.py`) and of the
payment MCP tool (`app/business-api/python/payment/mcp_tools.py`).

The Python code drives an external chat-agent framework.  The shallow embedding
models the framework objects explicitly:

* an `AgentThread` is its list of chat messages, and serialization is faithful
  (`serialize`/`update_from_thread_state` round-trip the message list), so a
  stored blob is modelled as the message list itself;
* a run of a chat-completions agent with tools (`agent.run` /
  `agent.run_stream`) follows the client-side tool loop: the thread passed to
  the run accumulates the incoming user message, one tool-call/tool-result
  message pair per tool invocation, and the final assistant message; each tool
  invocation executes the bound Python method (`route_to_account_agent`, ...)
  with the model-generated argument;
* what the language model does during a run (which tools it calls, with which
  generated arguments, what the sub-agents answer, the final text, the streamed
  chunks, whether the remote call raises) is external nondeterminism, supplied
  as explicit behaviour arguments;
* purely local framework operations (`create_agent`, `get_new_thread`,
  `serialize`, `update_from_thread_state` on blobs this layer itself produced)
  are total; the only fallible operations are the remote model calls
  (`agent.run`, iteration of `agent.run_stream`) and the explicit
  `AgentThreadException` raise in the source, modelled with `Except`.
-/

namespace BankingAssistant

/-- A chat message held in an agent thread: a caller (user) message, a
model-authored assistant message, a tool call issued by the model with its
generated argument, or the text returned by the invoked tool. -/
inductive Message where
  | user (text : String)
  | assistant (text : String)
  | toolCall (tool : String) (arg : String)
  | toolResult (text : String)
deriving DecidableEq, Repr

/-- An `AgentThread`, identified with its list of messages (serialization is
faithful, so the serialized blob kept in the stores is the same list). -/
abbrev Thread := List Message

/-- A Python `dict[str, ...]` (`thread_store`, `supervisor_thread_store`),
modelled as an insertion-ordered association list with unique keys. -/
abbrev Store := List (String × Thread)

/-- Lookup, as `dict.get(key, None)`. -/
def Store.get : Store → String → Option Thread
  | [], _ => none
  | (k, v) :: rest, key => if k = key then some v else Store.get rest key

/-- Assignment `d[key] = v`: overwrite in place if the key exists, else append
(Python dicts preserve insertion order). -/
def Store.put : Store → String → Thread → Store
  | [], key, v => [(key, v)]
  | (k, w) :: rest, key, v =>
      if k = key then (key, v) :: rest else (k, w) :: Store.put rest key v

/-- The key set (in insertion order) of a store. -/
def Store.keys (s : Store) : List String := s.map Prod.fst

/-- The pair of class-level stores of `SupervisorAgent`: `thread_store` (full
dialogue state, shared with sub-agents) and `supervisor_thread_store` (routing
state, only the supervisor's own conversation). -/
structure Stores where
  thread_store : Store
  supervisor_thread_store : Store
deriving DecidableEq, Repr

/-- The three responders registered as tools of the supervisor. -/
inductive AgentName where
  | account
  | transaction
  | payment
deriving DecidableEq, Repr

/-- The tool name under which each responder is exposed to the model. -/
def toolNameOf : AgentName → String
  | .account => "route_to_account_agent"
  | .transaction => "route_to_transaction_agent"
  | .payment => "route_to_payment_agent"

/-- The supervisor instance fields used by the routing tools:
`self.user_message` (the saved original caller utterance) and
`self.current_thread` (the dialogue-state thread shared with sub-agents). -/
structure OrchState where
  user_message : String
  current_thread : Thread
deriving DecidableEq, Repr

/-- Models `af_agent.run(utterance, thread)` for a sub-agent: the run appends
the utterance it was given and its answer to the given thread and returns the
answer text (`response.text`).  The answer is external nondeterminism, passed
in as `reply`. -/
def subAgentRun (utterance : String) (thread : Thread) (reply : String) :
    Thread × String :=
  (thread ++ [Message.user utterance, Message.assistant reply], reply)

/-- `route_to_account_agent(self, user_message)`: builds the account agent and
runs it on `self.user_message` and `self.current_thread` — NOT on the
model-generated `user_message` argument, which the body never reads.  Returns
the updated instance state, the utterance actually passed to the sub-agent,
and the returned text. -/
def route_to_account_agent (st : OrchState) (user_message : String)
    (reply : String) : OrchState × String × String :=
  let (t, r) := subAgentRun st.user_message st.current_thread reply
  ({ st with current_thread := t }, st.user_message, r)

/-- `route_to_transaction_agent(self, user_message)`: same shape as
`route_to_account_agent`, dispatching to the transaction-history agent. -/
def route_to_transaction_agent (st : OrchState) (user_message : String)
    (reply : String) : OrchState × String × String :=
  let (t, r) := subAgentRun st.user_message st.current_thread reply
  ({ st with current_thread := t }, st.user_message, r)

/-- `route_to_payment_agent(self, user_message)`: same shape as
`route_to_account_agent`, dispatching to the payment agent. -/
def route_to_payment_agent (st : OrchState) (user_message : String)
    (reply : String) : OrchState × String × String :=
  let (t, r) := subAgentRun st.user_message st.current_thread reply
  ({ st with current_thread := t }, st.user_message, r)

/-- One tool invocation the model performs during a supervisor run: which
routing tool it calls, the argument text the model generated for it (possibly
a paraphrase of the caller's utterance), and what the dispatched sub-agent
answers. -/
structure ToolInvocation where
  agent : AgentName
  generatedArg : String
  responderReply : String
deriving DecidableEq, Repr

/-- Execute one tool invocation against the bound routing methods. -/
def dispatchTool (st : OrchState) (inv : ToolInvocation) :
    OrchState × String × String :=
  match inv.agent with
  | .account => route_to_account_agent st inv.generatedArg inv.responderReply
  | .transaction => route_to_transaction_agent st inv.generatedArg inv.responderReply
  | .payment => route_to_payment_agent st inv.generatedArg inv.responderReply

/-- The client-side tool loop of a supervisor run: execute the tool calls in
order.  Returns the final instance state, the tool-call/tool-result messages
recorded on the supervisor thread (the tool result being exactly the text the
routing method returned), and the dispatch log: for each invocation, the
responder reached and the utterance actually passed to it. -/
def runTools : OrchState → List ToolInvocation → OrchState × List Message × List (AgentName × String)
  | st, [] => (st, [], [])
  | st, inv :: rest =>
      let (st1, passed, reply) := dispatchTool st inv
      let (st2, msgs, log) := runTools st1 rest
      (st2,
        Message.toolCall (toolNameOf inv.agent) inv.generatedArg ::
          Message.toolResult reply :: msgs,
        (inv.agent, passed) :: log)

/-- The model side of one non-streaming supervisor run: the tool calls it
issues and the final answer text it generates.  A run with no tool calls is
the unsupported-domain outcome: per the triage instructions the model answers
directly that it cannot help, with model-generated wording. -/
structure SupervisorBehavior where
  calls : List ToolInvocation
  finalText : String
deriving DecidableEq, Repr

/-- `agent.run(user_message, thread=supervisor_resumed_thread)`: the supervisor
thread accumulates the user message, the tool-loop messages and the final
assistant text; the tools mutate the instance state (dialogue thread). -/
def supervisorRun (st : OrchState) (routing : Thread) (msg : String)
    (b : SupervisorBehavior) :
    OrchState × Thread × String × List (AgentName × String) :=
  let (st1, toolMsgs, log) := runTools st b.calls
  (st1,
    routing ++ Message.user msg :: (toolMsgs ++ [Message.assistant b.finalText]),
    b.finalText, log)

/-- Message of the `AgentThreadException` raised when a supplied thread id is
missing from either store. -/
def notFoundMsg (tid : String) : String :=
  "Thread id " ++ tid ++ " not found in thread stores"

/-- `SupervisorAgent.processMessage(user_message, thread_id)`.  Inputs beyond
the Python arguments: the current class-level stores, the fresh uuid minted
when no thread id is supplied, and the run behaviour (`Except.error` when the
remote model call raises).  Output: the returned `(response.text, thread_id)`
pair or the propagated exception (the method has no handler), the stores after
the call, and the dispatch log of the run (ghost output used to state which
utterance each responder received). -/
def processMessage (S : Stores) (user_message : String)
    (thread_id : Option String) (freshId : String)
    (run : Except String SupervisorBehavior) :
    Except String (String × String) × Stores × List (AgentName × String) :=
  match thread_id with
  | none =>
      let pid := freshId
      let S1 : Stores :=
        ⟨Store.put S.thread_store pid [], Store.put S.supervisor_thread_store pid []⟩
      match run with
      | Except.error e => (Except.error e, S1, [])
      | Except.ok b =>
          let (st1, routing1, text, log) := supervisorRun ⟨user_message, []⟩ [] user_message b
          (Except.ok (text, pid),
            ⟨Store.put S1.thread_store pid st1.current_thread,
             Store.put S1.supervisor_thread_store pid routing1⟩,
            log)
  | some pid =>
      match Store.get S.thread_store pid, Store.get S.supervisor_thread_store pid with
      | some d, some r =>
          match run with
          | Except.error e => (Except.error e, S, [])
          | Except.ok b =>
              let (st1, routing1, text, log) := supervisorRun ⟨user_message, d⟩ r user_message b
              (Except.ok (text, pid),
                ⟨Store.put S.thread_store pid st1.current_thread,
                 Store.put S.supervisor_thread_store pid routing1⟩,
                log)
      | _, _ => (Except.error (notFoundMsg pid), S, [])

/-- The model side of one streaming supervisor run: the tool calls that fire
during the stream, the delivered non-empty chunk texts, and `failure = some e`
when iteration of the chunk sequence raises after those chunks (and after the
listed tool calls); `failure = none` is clean completion, whose final answer
text is the concatenation of the chunks. -/
structure StreamBehavior where
  calls : List ToolInvocation
  chunks : List String
  failure : Option String
deriving DecidableEq, Repr

/-- One element yielded by `processMessageStream`:
`(content_chunk, is_final, thread_id)`. -/
abbrev StreamElem := String × Bool × Option String

/-- The fixed message yielded when the agent lacks `run_stream`. -/
def streamUnsupportedMsg : String :=
  "Streaming is not supported by this agent. Please disable streaming in your settings and try again."

/-- The message yielded by the mid-stream exception handler. -/
def streamFailedMsg (e : String) : String :=
  "Streaming failed: " ++ e ++ ". Please try again or disable streaming."

/-- The message yielded by the outer exception handler of
`processMessageStream`. -/
def outerErrorMsg (e : String) : String :=
  "I apologize, but I encountered an error while processing your request: " ++ e

/-- The body of `processMessageStream` after session resolution: `Scur` are
the stores as already updated by resolution, `pid` the resolved thread id,
`d`/`r` the resumed dialogue and supervisor threads.  Covers the
`hasattr(agent, run_stream)` guard, the chunk loop with its mid-stream
handler (which skips persistence), and on clean completion the store update
followed by the final empty chunk. -/
def streamCore (Scur : Stores) (pid : String) (d r : Thread)
    (user_message : String) (supportsStreaming : Bool) (b : StreamBehavior) :
    List StreamElem × Stores × List (AgentName × String) :=
  if supportsStreaming = false then
    ([(streamUnsupportedMsg, true, some pid)], Scur, [])
  else
    match b.failure with
    | some e =>
        (b.chunks.map (fun c => (c, false, none)) ++
          [(streamFailedMsg e, true, some pid)],
         Scur,
         (runTools ⟨user_message, d⟩ b.calls).2.2)
    | none =>
        let (st1, toolMsgs, log) := runTools ⟨user_message, d⟩ b.calls
        let routing1 := r ++ Message.user user_message ::
          (toolMsgs ++ [Message.assistant (String.join b.chunks)])
        (b.chunks.map (fun c => (c, false, none)) ++ [("", true, some pid)],
         ⟨Store.put Scur.thread_store pid st1.current_thread,
          Store.put Scur.supervisor_thread_store pid routing1⟩,
         log)

/-- `SupervisorAgent.processMessageStream(user_message, thread_id)`.  Session
resolution mirrors `processMessage`; the `AgentThreadException` raised for a
missing or partial entry is caught by the method's outer handler, which yields
one final element carrying the outer error message and the original
`thread_id` argument (here equal to the supplied id).  Returns the yielded
sequence, the stores after the call, and the dispatch log. -/
def processMessageStream (S : Stores) (user_message : String)
    (thread_id : Option String) (freshId : String) (supportsStreaming : Bool)
    (b : StreamBehavior) :
    List StreamElem × Stores × List (AgentName × String) :=
  match thread_id with
  | none =>
      let pid := freshId
      let S1 : Stores :=
        ⟨Store.put S.thread_store pid [], Store.put S.supervisor_thread_store pid []⟩
      streamCore S1 pid [] [] user_message supportsStreaming b
  | some pid =>
      match Store.get S.thread_store pid, Store.get S.supervisor_thread_store pid with
      | some d, some r => streamCore S pid d r user_message supportsStreaming b
      | _, _ =>
          ([(outerErrorMsg (notFoundMsg pid), true, some pid)], S, [])

/-- One turn operation against the shared stores (used to state reachability
invariants over arbitrary operation sequences). -/
inductive TurnOp where
  | plain (user_message : String) (thread_id : Option String) (freshId : String)
      (run : Except String SupervisorBehavior)
  | stream (user_message : String) (thread_id : Option String) (freshId : String)
      (supportsStreaming : Bool) (b : StreamBehavior)

/-- The store effect of one turn operation. -/
def applyOp (S : Stores) : TurnOp → Stores
  | .plain m tid f run => (processMessage S m tid f run).2.1
  | .stream m tid f supp b => (processMessageStream S m tid f supp b).2.1

/-- Run a sequence of turn operations from given stores. -/
def runOps : Stores → List TurnOp → Stores
  | S, [] => S
  | S, op :: rest => runOps (applyOp S op) rest

/-- The class-level stores start out as empty dicts. -/
def initialStores : Stores := ⟨[], []⟩

/-- The tool-call/tool-result transcript a list of invocations leaves on the
supervisor (routing) thread. -/
def toolTranscript : List ToolInvocation → List Message
  | [] => []
  | inv :: rest =>
      Message.toolCall (toolNameOf inv.agent) inv.generatedArg ::
        Message.toolResult inv.responderReply :: toolTranscript rest

/-- The messages a list of dispatches appends to the dialogue thread: one
user/assistant exchange per dispatched responder, each carrying the original
utterance `m`. -/
def dialogueTranscript (m : String) : List ToolInvocation → List Message
  | [] => []
  | inv :: rest =>
      Message.user m :: Message.assistant inv.responderReply ::
        dialogueTranscript m rest

/-- The `Payment` pydantic model of the payment business API (`amount` is a
Python float never inspected by the tool; its numeric type is irrelevant to
the control flow and is modelled as `Int`, which covers the zero and negative
cases the claims mention). -/
structure Payment where
  accountId : String
  amount : Int
  description : String
  recipientName : Option String
  recipientBankCode : Option String
  paymentMethodId : String
  paymentType : Option String
  timestamp : String
deriving DecidableEq, Repr

/-- The `processPayment` MCP tool (`process_payment` in
`payment/mcp_tools.py`): build a `Payment` from the arguments, call
`payment_service.process_payment` (an oracle: `Except.ok` when the service
returns, `Except.error` when it raises, in which case the exception
propagates), then return the Python dict with the single entry
status/ok, modelled as a key-value list. -/
def process_payment (account_id : String) (amount : Int) (description : String)
    (payment_method_id : String) (timestamp : String)
    (recipient_name : Option String) (recipient_bank_code : Option String)
    (payment_type : Option String)
    (service : Payment → Except String Unit) :
    Except String (List (String × String)) :=
  let payment_obj : Payment :=
    ⟨account_id, amount, description, recipient_name, recipient_bank_code,
      payment_method_id, payment_type, timestamp⟩
  match service payment_obj with
  | Except.error e => Except.error e
  | Except.ok _ => Except.ok [("status", "ok")]

/-! Helper lemmas about the store and the tool loop. -/

theorem Store.get_put_self (s : Store) (k : String) (v : Thread) :
    Store.get (Store.put s k v) k = some v := by
  induction s with
  | nil => simp [Store.put, Store.get]
  | cons hd rest ih =>
      obtain ⟨k0, w⟩ := hd
      by_cases h : k0 = k
      · simp [Store.put, Store.get, h]
      · simp [Store.put, Store.get, h, ih]

theorem Store.keys_put (s : Store) (k : String) (v : Thread) :
    Store.keys (Store.put s k v) =
      if k ∈ Store.keys s then Store.keys s else Store.keys s ++ [k] := by
  induction s with
  | nil => simp [Store.put, Store.keys]
  | cons hd rest ih =>
      obtain ⟨k0, w⟩ := hd
      by_cases h : k0 = k
      · simp [Store.put, Store.keys, h]
      · have hne : ¬ (k = k0) := fun hk => h hk.symm
        simp only [Store.keys] at ih ⊢
        by_cases hm : k ∈ List.map Prod.fst rest
        · simp [Store.put, h, hm, ih, hne]
        · simp [Store.put, h, hm, ih, hne]

theorem Store.get_isSome_iff (s : Store) (k : String) :
    (Store.get s k).isSome = true ↔ k ∈ Store.keys s := by
  induction s with
  | nil => simp [Store.get, Store.keys]
  | cons hd rest ih =>
      obtain ⟨k0, w⟩ := hd
      by_cases h : k0 = k
      · simp [Store.get, Store.keys, h]
      · have hne : ¬ (k = k0) := fun hk => h hk.symm
        simp [Store.get, Store.keys, h, hne, ih]

theorem runTools_eq (st : OrchState) (calls : List ToolInvocation) :
    runTools st calls =
      (⟨st.user_message,
          st.current_thread ++ dialogueTranscript st.user_message calls⟩,
        toolTranscript calls,
        calls.map (fun inv => (inv.agent, st.user_message))) := by
  induction calls generalizing st with
  | nil => simp [runTools, dialogueTranscript, toolTranscript]
  | cons inv rest ih =>
      cases hagent : inv.agent <;>
        simp [runTools, dispatchTool, hagent, route_to_account_agent,
          route_to_transaction_agent, route_to_payment_agent, subAgentRun, ih,
          dialogueTranscript, toolTranscript]

theorem supervisorRun_eq (st : OrchState) (routing : Thread) (msg : String)
    (b : SupervisorBehavior) :
    supervisorRun st routing msg b =
      (⟨st.user_message,
          st.current_thread ++ dialogueTranscript st.user_message b.calls⟩,
        routing ++ Message.user msg ::
          (toolTranscript b.calls ++ [Message.assistant b.finalText]),
        b.finalText,
        b.calls.map (fun inv => (inv.agent, st.user_message))) := by
  simp [supervisorRun, runTools_eq]

/-- Key-set equality of the two state lanes: the reachability invariant of the
store pair. -/
def laneInv (S : Stores) : Prop :=
  Store.keys S.thread_store = Store.keys S.supervisor_thread_store

theorem laneInv_put {S : Stores} (h : laneInv S) (k : String) (v w : Thread) :
    laneInv ⟨Store.put S.thread_store k v, Store.put S.supervisor_thread_store k w⟩ := by
  unfold laneInv at h ⊢
  simp only [Store.keys_put, h]

theorem laneInv_processMessage {S : Stores} (h : laneInv S) (m : String)
    (tid : Option String) (fresh : String)
    (run : Except String SupervisorBehavior) :
    laneInv (processMessage S m tid fresh run).2.1 := by
  cases tid with
  | none =>
      cases run with
      | error e => simpa [processMessage] using laneInv_put h fresh [] []
      | ok b =>
          simp only [processMessage, supervisorRun_eq]
          exact laneInv_put (laneInv_put h fresh [] []) fresh _ _
  | some pid =>
      cases hd : Store.get S.thread_store pid with
      | none =>
          cases hr : Store.get S.supervisor_thread_store pid with
          | none => simpa [processMessage, hd, hr] using h
          | some r => simpa [processMessage, hd, hr] using h
      | some d =>
          cases hr : Store.get S.supervisor_thread_store pid with
          | none => simpa [processMessage, hd, hr] using h
          | some r =>
              cases run with
              | error e => simpa [processMessage, hd, hr] using h
              | ok b =>
                  simp only [processMessage, hd, hr, supervisorRun_eq]
                  exact laneInv_put h pid _ _

theorem laneInv_streamCore {Scur : Stores} (h : laneInv Scur) (pid : String)
    (d r : Thread) (m : String) (supp : Bool) (b : StreamBehavior) :
    laneInv (streamCore Scur pid d r m supp b).2.1 := by
  cases supp with
  | false => simpa [streamCore] using h
  | true =>
      cases hf : b.failure with
      | some e => simpa [streamCore, hf] using h
      | none =>
          simp only [streamCore, hf, runTools_eq]
          exact laneInv_put h pid _ _

theorem laneInv_processMessageStream {S : Stores} (h : laneInv S) (m : String)
    (tid : Option String) (fresh : String) (supp : Bool) (b : StreamBehavior) :
    laneInv (processMessageStream S m tid fresh supp b).2.1 := by
  cases tid with
  | none =>
      simp only [processMessageStream]
      exact laneInv_streamCore (laneInv_put h fresh [] []) fresh [] [] m supp b
  | some pid =>
      cases hd : Store.get S.thread_store pid with
      | none =>
          cases hr : Store.get S.supervisor_thread_store pid with
          | none => simpa [processMessageStream, hd, hr] using h
          | some r => simpa [processMessageStream, hd, hr] using h
      | some d =>
          cases hr : Store.get S.supervisor_thread_store pid with
          | none => simpa [processMessageStream, hd, hr] using h
          | some r =>
              simp only [processMessageStream, hd, hr]
              exact laneInv_streamCore h pid d r m supp b

theorem laneInv_applyOp {S : Stores} (h : laneInv S) (op : TurnOp) :
    laneInv (applyOp S op) := by
  cases op with
  | plain m tid f run => exact laneInv_processMessage h m tid f run
  | stream m tid f supp b => exact laneInv_processMessageStream h m tid f supp b

theorem laneInv_runOps (ops : List TurnOp) :
    ∀ S : Stores, laneInv S → laneInv (runOps S ops) := by
  induction ops with
  | nil => intro S h; exact h
  | cons op rest ih => intro S h; exact ih _ (laneInv_applyOp h op)

theorem processMessage_log_original (S : Stores) (m : String)
    (tid : Option String) (fresh : String)
    (run : Except String SupervisorBehavior) :
    ∀ p ∈ (processMessage S m tid fresh run).2.2, p.2 = m := by
  intro p hp
  cases tid with
  | none =>
      cases run with
      | error e => simp [processMessage] at hp
      | ok b =>
          simp only [processMessage, supervisorRun_eq, List.mem_map] at hp
          obtain ⟨inv, _, hpe⟩ := hp
          exact congrArg Prod.snd hpe.symm
  | some pid =>
      cases hd : Store.get S.thread_store pid with
      | none =>
          cases hr : Store.get S.supervisor_thread_store pid with
          | none => simp [processMessage, hd, hr] at hp
          | some r => simp [processMessage, hd, hr] at hp
      | some d =>
          cases hr : Store.get S.supervisor_thread_store pid with
          | none => simp [processMessage, hd, hr] at hp
          | some r =>
              cases run with
              | error e => simp [processMessage, hd, hr] at hp
              | ok b =>
                  simp only [processMessage, hd, hr, supervisorRun_eq,
                    List.mem_map] at hp
                  obtain ⟨inv, _, hpe⟩ := hp
                  exact congrArg Prod.snd hpe.symm

theorem streamCore_log_original (Scur : Stores) (pid : String) (d r : Thread)
    (m : String) (supp : Bool) (b : StreamBehavior) :
    ∀ p ∈ (streamCore Scur pid d r m supp b).2.2, p.2 = m := by
  intro p hp
  cases supp with
  | false => simp [streamCore] at hp
  | true =>
      cases hf : b.failure with
      | some e =>
          simp [streamCore, hf, runTools_eq, List.mem_map] at hp
          obtain ⟨inv, _, hpe⟩ := hp
          exact congrArg Prod.snd hpe.symm
      | none =>
          simp [streamCore, hf, runTools_eq, List.mem_map] at hp
          obtain ⟨inv, _, hpe⟩ := hp
          exact congrArg Prod.snd hpe.symm

theorem processMessageStream_log_original (S : Stores) (m : String)
    (tid : Option String) (fresh : String) (supp : Bool) (b : StreamBehavior) :
    ∀ p ∈ (processMessageStream S m tid fresh supp b).2.2, p.2 = m := by
  intro p hp
  cases tid with
  | none =>
      simp only [processMessageStream] at hp
      exact streamCore_log_original _ _ _ _ _ _ _ p hp
  | some pid =>
      cases hd : Store.get S.thread_store pid with
      | none =>
          cases hr : Store.get S.supervisor_thread_store pid with
          | none => simp [processMessageStream, hd, hr] at hp
          | some r => simp [processMessageStream, hd, hr] at hp
      | some d =>
          cases hr : Store.get S.supervisor_thread_store pid with
          | none => simp [processMessageStream, hd, hr] at hp
          | some r =>
              simp only [processMessageStream, hd, hr] at hp
              exact streamCore_log_original _ _ _ _ _ _ _ p hp

/-- C1: in every turn, streaming or non-streaming, each responder dispatched
by the routing tools receives byte-for-byte the caller's original utterance
(the saved `self.user_message`), never the argument text the supervisor model
generated when invoking the routing tool. -/
theorem original_utterance_forwarding (S : Stores) (m : String)
    (tid : Option String) (fresh : String)
    (run : Except String SupervisorBehavior) (supp : Bool)
    (b : StreamBehavior) :
    (∀ p ∈ (processMessage S m tid fresh run).2.2, p.2 = m) ∧
    (∀ p ∈ (processMessageStream S m tid fresh supp b).2.2, p.2 = m) :=
  ⟨processMessage_log_original S m tid fresh run,
    processMessageStream_log_original S m tid fresh supp b⟩

/-- Witness for C1: a resumed turn in which the supervisor calls the account
tool with the paraphrase g dispatches the responder with the original
utterance hello. -/
theorem original_utterance_forwarding_witness :
    (AgentName.account, "hello") ∈ (processMessage ⟨[("s", [])], [("s", [])]⟩
      "hello" (some "s") "f"
      (Except.ok ⟨[⟨AgentName.account, "g", "r"⟩], "t"⟩)).2.2 ∧
    ((AgentName.account, "hello") : AgentName × String).2 = "hello" :=
  ⟨by decide,
    (original_utterance_forwarding ⟨[("s", [])], [("s", [])]⟩ "hello" (some "s") "f"
      (Except.ok ⟨[⟨AgentName.account, "g", "r"⟩], "t"⟩) true ⟨[], [], none⟩).1
      (AgentName.account, "hello") (by decide)⟩

theorem streamCore_shape (Scur : Stores) (pid : String) (d r : Thread)
    (m : String) (supp : Bool) (b : StreamBehavior) :
    ∃ pre e, (streamCore Scur pid d r m supp b).1 = pre ++ [(e, true, some pid)] ∧
      ∀ c ∈ pre, c.2.1 = false ∧ c.2.2 = none := by
  cases supp with
  | false =>
      refine ⟨[], streamUnsupportedMsg, by simp [streamCore], by simp⟩
  | true =>
      cases hf : b.failure with
      | some e =>
          refine ⟨b.chunks.map (fun c => (c, false, none)), streamFailedMsg e,
            by simp [streamCore, hf], ?_⟩
          intro c hc
          simp only [List.mem_map] at hc
          obtain ⟨x, _, hce⟩ := hc
          subst hce
          exact ⟨rfl, rfl⟩
      | none =>
          refine ⟨b.chunks.map (fun c => (c, false, none)), "",
            by simp [streamCore, hf, runTools_eq], ?_⟩
          intro c hc
          simp only [List.mem_map] at hc
          obtain ⟨x, _, hce⟩ := hc
          subst hce
          exact ⟨rfl, rfl⟩

/-- C4: every streaming turn yields a sequence whose last element is the one
and only final element; it carries a session id, and every preceding
(non-final) element carries no session id. -/
theorem streaming_terminal_contract (S : Stores) (m : String)
    (tid : Option String) (fresh : String) (supp : Bool) (b : StreamBehavior) :
    ∃ pre e sid,
      (processMessageStream S m tid fresh supp b).1 = pre ++ [(e, true, some sid)] ∧
      ∀ c ∈ pre, c.2.1 = false ∧ c.2.2 = none := by
  cases tid with
  | none =>
      obtain ⟨pre, e, h1, h2⟩ := streamCore_shape
        ⟨Store.put S.thread_store fresh [], Store.put S.supervisor_thread_store fresh []⟩
        fresh [] [] m supp b
      exact ⟨pre, e, fresh, h1, h2⟩
  | some pid =>
      cases hd : Store.get S.thread_store pid with
      | none =>
          cases hr : Store.get S.supervisor_thread_store pid with
          | none =>
              exact ⟨[], outerErrorMsg (notFoundMsg pid), pid,
                by simp [processMessageStream, hd, hr], by simp⟩
          | some r =>
              exact ⟨[], outerErrorMsg (notFoundMsg pid), pid,
                by simp [processMessageStream, hd, hr], by simp⟩
      | some d =>
          cases hr : Store.get S.supervisor_thread_store pid with
          | none =>
              exact ⟨[], outerErrorMsg (notFoundMsg pid), pid,
                by simp [processMessageStream, hd, hr], by simp⟩
          | some r =>
              obtain ⟨pre, e, h1, h2⟩ := streamCore_shape S pid d r m supp b
              refine ⟨pre, e, pid, ?_, h2⟩
              simpa [processMessageStream, hd, hr] using h1

/-- Witness for C4: a new-session one-chunk stream satisfies the terminal
contract. -/
theorem streaming_terminal_contract_witness :
    ∃ pre e sid,
      (processMessageStream initialStores "hi" none "u4" true ⟨[], ["x"], none⟩).1
        = pre ++ [(e, true, some sid)] ∧
      ∀ c ∈ pre, c.2.1 = false ∧ c.2.2 = none :=
  streaming_terminal_contract initialStores "hi" none "u4" true ⟨[], ["x"], none⟩

/-- C10: whenever the payment service call returns without raising, the
`processPayment` tool answers the status/ok dict, regardless of all argument
values; and any non-raising invocation of the tool only ever reports the ok
status. -/
theorem process_payment_always_ok (account_id : String) (amount : Int)
    (description payment_method_id timestamp : String)
    (recipient_name recipient_bank_code payment_type : Option String)
    (service : Payment → Except String Unit)
    (h : service ⟨account_id, amount, description, recipient_name,
        recipient_bank_code, payment_method_id, payment_type, timestamp⟩
      = Except.ok ()) :
    process_payment account_id amount description payment_method_id timestamp
        recipient_name recipient_bank_code payment_type service
      = Except.ok [("status", "ok")] ∧
    (∀ (svc : Payment → Except String Unit) (res : List (String × String)),
        process_payment account_id amount description payment_method_id timestamp
            recipient_name recipient_bank_code payment_type svc
          = Except.ok res →
        res = [("status", "ok")]) := by
  constructor
  · simp [process_payment, h]
  · intro svc res hres
    cases hsvc : svc ⟨account_id, amount, description, recipient_name,
        recipient_bank_code, payment_method_id, payment_type, timestamp⟩ with
    | error e => simp [process_payment, hsvc] at hres
    | ok u =>
        simp [process_payment, hsvc] at hres
        exact hres.symm

/-- Witness for C10: a zero-context invocation with a negative amount and all
optional recipient fields absent still returns the ok status. -/
theorem process_payment_always_ok_witness :
    process_payment "acc-1" (-5) "rent" "pm-1" "2026-01-01T00:00:00Z"
        none none none (fun _ => Except.ok ())
      = Except.ok [("status", "ok")] :=
  (process_payment_always_ok "acc-1" (-5) "rent" "pm-1" "2026-01-01T00:00:00Z"
    none none none (fun _ => Except.ok ()) rfl).1

/-- C2: from the initial empty stores, after any sequence of turn operations
the two state lanes hold exactly the same session ids (every write stores both
lanes together); and a turn that resumes a session id for which the two lanes
disagree errors out — the non-streaming turn with the propagated
`AgentThreadException`, the streaming turn with its single final error
element — leaving the stores unchanged rather than repairing them. -/
theorem session_lane_coupling :
    (∀ (ops : List TurnOp) (sid : String),
        (Store.get (runOps initialStores ops).thread_store sid).isSome = true ↔
        (Store.get (runOps initialStores ops).supervisor_thread_store sid).isSome = true) ∧
    (∀ (S : Stores) (m sid fresh : String) (run : Except String SupervisorBehavior),
        (Store.get S.thread_store sid).isSome ≠ (Store.get S.supervisor_thread_store sid).isSome →
        (processMessage S m (some sid) fresh run).1 = Except.error (notFoundMsg sid) ∧
        (processMessage S m (some sid) fresh run).2.1 = S) ∧
    (∀ (S : Stores) (m sid fresh : String) (supp : Bool) (b : StreamBehavior),
        (Store.get S.thread_store sid).isSome ≠ (Store.get S.supervisor_thread_store sid).isSome →
        (processMessageStream S m (some sid) fresh supp b).1 =
            [(outerErrorMsg (notFoundMsg sid), true, some sid)] ∧
        (processMessageStream S m (some sid) fresh supp b).2.1 = S) := by
  refine ⟨?_, ?_, ?_⟩
  · intro ops sid
    have hinv : laneInv (runOps initialStores ops) :=
      laneInv_runOps ops initialStores rfl
    unfold laneInv at hinv
    rw [Store.get_isSome_iff, Store.get_isSome_iff, hinv]
  · intro S m sid fresh run hne
    cases hd : Store.get S.thread_store sid with
    | none =>
        cases hr : Store.get S.supervisor_thread_store sid with
        | none => rw [hd, hr] at hne; exact absurd rfl hne
        | some r =>
            exact ⟨by simp [processMessage, hd, hr], by simp [processMessage, hd, hr]⟩
    | some d =>
        cases hr : Store.get S.supervisor_thread_store sid with
        | none =>
            exact ⟨by simp [processMessage, hd, hr], by simp [processMessage, hd, hr]⟩
        | some r => rw [hd, hr] at hne; exact absurd rfl hne
  · intro S m sid fresh supp b hne
    cases hd : Store.get S.thread_store sid with
    | none =>
        cases hr : Store.get S.supervisor_thread_store sid with
        | none => rw [hd, hr] at hne; exact absurd rfl hne
        | some r =>
            exact ⟨by simp [processMessageStream, hd, hr],
              by simp [processMessageStream, hd, hr]⟩
    | some d =>
        cases hr : Store.get S.supervisor_thread_store sid with
        | none =>
            exact ⟨by simp [processMessageStream, hd, hr],
              by simp [processMessageStream, hd, hr]⟩
        | some r => rw [hd, hr] at hne; exact absurd rfl hne

/-- Witness for C2: after one brand-new-session turn the minted id is present
in both lanes; and on a store holding only the dialogue lane for id s, the
resuming turn errors with the not-found exception. -/
theorem session_lane_coupling_witness :
    ((Store.get (runOps initialStores
        [TurnOp.plain "hi" none "u1" (Except.ok ⟨[], "t"⟩)]).thread_store "u1").isSome = true ↔
     (Store.get (runOps initialStores
        [TurnOp.plain "hi" none "u1" (Except.ok ⟨[], "t"⟩)]).supervisor_thread_store "u1").isSome = true) ∧
    (processMessage ⟨[("s", [])], []⟩ "hi" (some "s") "u2" (Except.ok ⟨[], "t"⟩)).1
      = Except.error (notFoundMsg "s") :=
  ⟨session_lane_coupling.1 [TurnOp.plain "hi" none "u1" (Except.ok ⟨[], "t"⟩)] "u1",
    (session_lane_coupling.2.1 ⟨[("s", [])], []⟩ "hi" "s" "u2" (Except.ok ⟨[], "t"⟩)
      (by decide)).1⟩

/-- C3 counterexample: a turn that dispatches the payment responder persists a
routing-state lane containing the responder's returned text verbatim — it is
recorded as the tool-result message of the routing call on the supervisor
thread. -/
theorem routing_state_contains_responder_output :
    Message.toolResult "RESPONDER OUTPUT" ∈
      (Store.get (processMessage initialStores "pay my electricity bill" none "sid-1"
          (Except.ok ⟨[⟨AgentName.payment, "router paraphrase", "RESPONDER OUTPUT"⟩],
            "final answer"⟩)).2.1.supervisor_thread_store "sid-1").getD [] := by
  decide

/-- C3 amended: after a turn that dispatches responders, the persisted routing
lane is the prior routing state extended with the orchestrator's own
conversation only — the caller's utterance, one tool-call/tool-result pair per
dispatch (the tool result being the text the routing method returned), and the
final answer — while the responders' dialogue exchanges go only to the
dialogue lane and the router's messages only to the routing lane.  Stated for
a resumed session in both modes (streaming on clean completion). -/
theorem routing_lane_orchestrator_only (S : Stores) (m sid fresh : String)
    (b : SupervisorBehavior) (sb : StreamBehavior) (d r : Thread)
    (hd : Store.get S.thread_store sid = some d)
    (hr : Store.get S.supervisor_thread_store sid = some r)
    (hsf : sb.failure = none) :
    (Store.get (processMessage S m (some sid) fresh (Except.ok b)).2.1.supervisor_thread_store sid
        = some (r ++ Message.user m ::
            (toolTranscript b.calls ++ [Message.assistant b.finalText])) ∧
     Store.get (processMessage S m (some sid) fresh (Except.ok b)).2.1.thread_store sid
        = some (d ++ dialogueTranscript m b.calls)) ∧
    (Store.get (processMessageStream S m (some sid) fresh true sb).2.1.supervisor_thread_store sid
        = some (r ++ Message.user m ::
            (toolTranscript sb.calls ++ [Message.assistant (String.join sb.chunks)])) ∧
     Store.get (processMessageStream S m (some sid) fresh true sb).2.1.thread_store sid
        = some (d ++ dialogueTranscript m sb.calls)) := by
  refine ⟨⟨?_, ?_⟩, ?_, ?_⟩ <;>
    simp [processMessage, processMessageStream, streamCore, hd, hr, hsf,
      supervisorRun_eq, runTools_eq, Store.get_put_self]

/-- Witness for C3 amended: the routing lane after a dispatched turn on a
resumed empty session is exactly the orchestrator conversation. -/
theorem routing_lane_orchestrator_only_witness :
    Store.get (processMessage ⟨[("s", [])], [("s", [])]⟩ "check balance" (some "s") "f"
        (Except.ok ⟨[⟨AgentName.account, "g", "balance is 10"⟩], "done"⟩)).2.1.supervisor_thread_store "s"
      = some ([] ++ Message.user "check balance" ::
          (toolTranscript [⟨AgentName.account, "g", "balance is 10"⟩] ++
            [Message.assistant "done"])) :=
  ((routing_lane_orchestrator_only ⟨[("s", [])], [("s", [])]⟩ "check balance" "s" "f"
      ⟨[⟨AgentName.account, "g", "balance is 10"⟩], "done"⟩ ⟨[], [], none⟩ [] []
      rfl rfl rfl).1).1

/-- C5: a streaming turn on an existing session whose chunk iteration raises
after zero or more delivered chunks emits exactly one further element — final,
carrying the mid-stream error message and the session id — and leaves both
store lanes exactly as they were before the turn. -/
theorem midstream_failure_no_persistence (S : Stores) (m sid fresh e : String)
    (b : StreamBehavior) (d r : Thread)
    (hd : Store.get S.thread_store sid = some d)
    (hr : Store.get S.supervisor_thread_store sid = some r)
    (hf : b.failure = some e) :
    (processMessageStream S m (some sid) fresh true b).1 =
        b.chunks.map (fun c => (c, false, none)) ++ [(streamFailedMsg e, true, some sid)] ∧
    (processMessageStream S m (some sid) fresh true b).2.1 = S := by
  constructor <;> simp [processMessageStream, streamCore, hd, hr, hf]

/-- Witness for C5: a two-chunk stream that then fails on session s leaves the
store untouched and ends with the error element. -/
theorem midstream_failure_no_persistence_witness :
    (processMessageStream ⟨[("s", [])], [("s", [])]⟩ "hi" (some "s") "f" true
        ⟨[], ["a", "b"], some "boom"⟩).1 =
      [("a", false, none), ("b", false, none),
        (streamFailedMsg "boom", true, some "s")] ∧
    (processMessageStream ⟨[("s", [])], [("s", [])]⟩ "hi" (some "s") "f" true
        ⟨[], ["a", "b"], some "boom"⟩).2.1 = ⟨[("s", [])], [("s", [])]⟩ :=
  midstream_failure_no_persistence ⟨[("s", [])], [("s", [])]⟩ "hi" "s" "f" "boom"
    ⟨[], ["a", "b"], some "boom"⟩ [] [] rfl rfl rfl

/-- C6 counterexample: a non-streaming turn supplying an unknown session id
does not complete by returning a SessionNotFound result — it raises the
`AgentThreadException`, which propagates out of `processMessage` (the method
has no handler). -/
theorem unknown_session_plain_turn_raises :
    (processMessage initialStores "hi" (some "ghost") "fresh-1"
        (Except.ok ⟨[], "t"⟩)).1 = Except.error (notFoundMsg "ghost") := rfl

/-- C6 amended: on a supplied session id with no stored state or only one
lane, no state is fabricated in either mode; the streaming turn completes by
yielding one final element echoing the supplied id with an error message,
while the non-streaming turn raises `AgentThreadException` (its message names
the id) instead of returning a result. -/
theorem session_not_found_handling (S : Stores) (m sid fresh : String)
    (run : Except String SupervisorBehavior) (supp : Bool) (b : StreamBehavior)
    (h : Store.get S.thread_store sid = none ∨
      Store.get S.supervisor_thread_store sid = none) :
    ((processMessage S m (some sid) fresh run).1 = Except.error (notFoundMsg sid) ∧
     (processMessage S m (some sid) fresh run).2.1 = S) ∧
    ((processMessageStream S m (some sid) fresh supp b).1 =
        [(outerErrorMsg (notFoundMsg sid), true, some sid)] ∧
     (processMessageStream S m (some sid) fresh supp b).2.1 = S) := by
  rcases h with h | h
  · cases hr : Store.get S.supervisor_thread_store sid with
    | none =>
        exact ⟨⟨by simp [processMessage, h, hr], by simp [processMessage, h, hr]⟩,
          by simp [processMessageStream, h, hr], by simp [processMessageStream, h, hr]⟩
    | some r =>
        exact ⟨⟨by simp [processMessage, h, hr], by simp [processMessage, h, hr]⟩,
          by simp [processMessageStream, h, hr], by simp [processMessageStream, h, hr]⟩
  · cases hd : Store.get S.thread_store sid with
    | none =>
        exact ⟨⟨by simp [processMessage, hd, h], by simp [processMessage, hd, h]⟩,
          by simp [processMessageStream, hd, h], by simp [processMessageStream, hd, h]⟩
    | some d =>
        exact ⟨⟨by simp [processMessage, hd, h], by simp [processMessage, hd, h]⟩,
          by simp [processMessageStream, hd, h], by simp [processMessageStream, hd, h]⟩

/-- Witness for C6 amended at a store holding only the dialogue lane for s. -/
theorem session_not_found_handling_witness :
    (processMessage ⟨[("s", [])], []⟩ "hi" (some "s") "f" (Except.ok ⟨[], "t"⟩)).1
      = Except.error (notFoundMsg "s") :=
  ((session_not_found_handling ⟨[("s", [])], []⟩ "hi" "s" "f" (Except.ok ⟨[], "t"⟩)
      true ⟨[], [], none⟩ (Or.inr rfl)).1).1

/-- C7 counterexample: two unsupported-domain turns (router issues no tool
call) over the same utterance return two different decline texts — the
response is the model-generated wording, not one fixed text shared by every
such turn. -/
theorem unsupported_domain_text_not_fixed :
    (processMessage initialStores "What is the weather today?" none "s1"
        (Except.ok ⟨[], "Sorry, I cannot help with that."⟩)).1
      = Except.ok ("Sorry, I cannot help with that.", "s1") ∧
    (processMessage initialStores "What is the weather today?" none "s1"
        (Except.ok ⟨[], "I can only help with banking."⟩)).1
      = Except.ok ("I can only help with banking.", "s1") := ⟨rfl, rfl⟩

/-- C7 amended: an unsupported-domain turn (the router issues no tool call and
answers directly) dispatches no responder and still persists both updated
lanes under the resolved session id; its response text is the router-generated
decline wording rather than a program-fixed constant. -/
theorem unsupported_domain_decline (S : Stores) (m fresh sid : String)
    (b : SupervisorBehavior) (hb : b.calls = []) (d r : Thread)
    (hd : Store.get S.thread_store sid = some d)
    (hr : Store.get S.supervisor_thread_store sid = some r) :
    ((processMessage S m none fresh (Except.ok b)).1 = Except.ok (b.finalText, fresh) ∧
     (processMessage S m none fresh (Except.ok b)).2.2 = [] ∧
     Store.get (processMessage S m none fresh (Except.ok b)).2.1.thread_store fresh
       = some [] ∧
     Store.get (processMessage S m none fresh (Except.ok b)).2.1.supervisor_thread_store fresh
       = some [Message.user m, Message.assistant b.finalText]) ∧
    ((processMessage S m (some sid) fresh (Except.ok b)).1 = Except.ok (b.finalText, sid) ∧
     (processMessage S m (some sid) fresh (Except.ok b)).2.2 = [] ∧
     Store.get (processMessage S m (some sid) fresh (Except.ok b)).2.1.thread_store sid
       = some d ∧
     Store.get (processMessage S m (some sid) fresh (Except.ok b)).2.1.supervisor_thread_store sid
       = some (r ++ [Message.user m, Message.assistant b.finalText])) := by
  obtain ⟨calls, finalText⟩ := b
  simp only at hb
  subst hb
  refine ⟨⟨?_, ?_, ?_, ?_⟩, ?_, ?_, ?_, ?_⟩ <;>
    simp [processMessage, supervisorRun_eq, hd, hr, dialogueTranscript,
      toolTranscript, Store.get_put_self]

/-- Witness for C7 amended: a declined new-session turn returns the
model-generated text with the minted id. -/
theorem unsupported_domain_decline_witness :
    (processMessage ⟨[("s", [])], [("s", [])]⟩ "What is the weather?" none "u9"
        (Except.ok ⟨[], "cannot help"⟩)).1 = Except.ok ("cannot help", "u9") :=
  ((unsupported_domain_decline ⟨[("s", [])], [("s", [])]⟩ "What is the weather?" "u9" "s"
      ⟨[], "cannot help"⟩ rfl [] [] rfl rfl).1).1

/-- C8 counterexample: a non-streaming turn on the existing session s whose
model call raises propagates the bare exception — the outcome carries no
session id even though the supplied id exists and its state is stored. -/
theorem plain_failure_drops_session_id :
    (processMessage ⟨[("s", [])], [("s", [])]⟩ "hi" (some "s") "f"
        (Except.error "boom")).1 = Except.error "boom" ∧
    ∀ t : String, (processMessage ⟨[("s", [])], [("s", [])]⟩ "hi" (some "s") "f"
        (Except.error "boom")).1 ≠ Except.ok (t, "s") := by
  constructor
  · rfl
  · intro t h
    have h2 : (Except.error "boom" : Except String (String × String))
        = Except.ok (t, "s") := h
    exact Except.noConfusion h2

/-- C8 amended: every streaming turn — all failure paths included — ends with
one final element carrying a session id: the supplied id whenever one was
supplied, the freshly minted id otherwise.  Non-streaming failures instead
propagate as exceptions (only the not-found raise names the id in its
message), as the counterexample shows. -/
theorem streaming_failures_carry_session_id (S : Stores) (m : String)
    (tid : Option String) (fresh : String) (supp : Bool) (b : StreamBehavior) :
    ∃ pre e sid,
      (processMessageStream S m tid fresh supp b).1 = pre ++ [(e, true, some sid)] ∧
      ((tid = none ∧ sid = fresh) ∨ tid = some sid) := by
  cases tid with
  | none =>
      obtain ⟨pre, e, h1, _⟩ := streamCore_shape
        ⟨Store.put S.thread_store fresh [], Store.put S.supervisor_thread_store fresh []⟩
        fresh [] [] m supp b
      exact ⟨pre, e, fresh, h1, Or.inl ⟨rfl, rfl⟩⟩
  | some pid =>
      cases hd : Store.get S.thread_store pid with
      | none =>
          cases hr : Store.get S.supervisor_thread_store pid with
          | none =>
              exact ⟨[], outerErrorMsg (notFoundMsg pid), pid,
                by simp [processMessageStream, hd, hr], Or.inr rfl⟩
          | some r =>
              exact ⟨[], outerErrorMsg (notFoundMsg pid), pid,
                by simp [processMessageStream, hd, hr], Or.inr rfl⟩
      | some d =>
          cases hr : Store.get S.supervisor_thread_store pid with
          | none =>
              exact ⟨[], outerErrorMsg (notFoundMsg pid), pid,
                by simp [processMessageStream, hd, hr], Or.inr rfl⟩
          | some r =>
              obtain ⟨pre, e, h1, _⟩ := streamCore_shape S pid d r m supp b
              refine ⟨pre, e, pid, ?_, Or.inr rfl⟩
              simpa [processMessageStream, hd, hr] using h1

/-- C9: when the agent lacks the streaming capability, the streaming turn
yields exactly one element — final, the fixed streaming-unsupported message,
carrying the resolved session id — and the session stays usable: an existing
session's stores are untouched and a new session has both lanes initialized. -/
theorem streaming_unsupported_sole_chunk (S : Stores) (m fresh sid : String)
    (b : StreamBehavior) (d r : Thread)
    (hd : Store.get S.thread_store sid = some d)
    (hr : Store.get S.supervisor_thread_store sid = some r) :
    ((processMessageStream S m (some sid) fresh false b).1 =
        [(streamUnsupportedMsg, true, some sid)] ∧
     (processMessageStream S m (some sid) fresh false b).2.1 = S) ∧
    ((processMessageStream S m none fresh false b).1 =
        [(streamUnsupportedMsg, true, some fresh)] ∧
     Store.get (processMessageStream S m none fresh false b).2.1.thread_store fresh
       = some [] ∧
     Store.get (processMessageStream S m none fresh false b).2.1.supervisor_thread_store fresh
       = some []) := by
  refine ⟨⟨?_, ?_⟩, ?_, ?_, ?_⟩ <;>
    simp [processMessageStream, streamCore, hd, hr, Store.get_put_self]

/-- Witness for C9 on an existing empty session s. -/
theorem streaming_unsupported_sole_chunk_witness :
    (processMessageStream ⟨[("s", [])], [("s", [])]⟩ "hi" (some "s") "f" false
        ⟨[], [], none⟩).1 = [(streamUnsupportedMsg, true, some "s")] :=
  ((streaming_unsupported_sole_chunk ⟨[("s", [])], [("s", [])]⟩ "hi" "f" "s"
      ⟨[], [], none⟩ [] [] rfl rfl).1).1

end BankingAssistant
